import Mathlib

/-!
Formal model of the speech-segmentation and transcription pipeline implemented by
`SimpleAudioRecorder` in `src/alternative_stt.py`.

The embedding is shallow:
* an audio frame (one `stream.read(chunk_size)` result, a block of signed 16-bit
  samples) is a `List ℤ`;
* Python text is modelled as `List Char`, with `str.strip()` modelled by `strip`;
* the float arithmetic of `_is_silence` is modelled by exact rational/real
  arithmetic (see `is_silence` for the NaN edge case of an empty frame);
* the `_record_audio` loop is modelled operationally: `stepFrame` is one pass of
  the inner `while` body, `innerLoop` runs the inner `while` over a finite frame
  supply, `segRun` runs the outer loop, and `runRecord` additionally models the
  transcription block with the downstream callback (which may mutate the
  `is_recording` flag and may raise);
* the transcription model and the downstream callback are oracles
  (`Except`-valued functions): the code treats them as opaque calls that either
  return or raise.
-/

namespace AlternativeSTT

/-- An audio frame: the int16 samples obtained from one `stream.read(chunk_size)`
call (line 76 of `alternative_stt.py`). -/
abbrev Frame := List ℤ

/-- Python text (`str`) modelled as a list of characters. -/
abbrev Text := List Char

/-- Model of Python's `str.strip()`: remove leading and trailing whitespace. -/
def strip (s : Text) : Text :=
  ((s.dropWhile Char.isWhitespace).reverse.dropWhile Char.isWhitespace).reverse

/-- Sum of the squared samples of a frame; `np.mean(audio ** 2)` is
`sumSq frame / frame.length`. -/
def sumSq (frame : Frame) : ℤ :=
  (frame.map fun s => s * s).sum

/-- The exact value of `normalized_rms` computed at lines 50–54 for a nonempty
frame: `sqrt(mean(samples²)) / 32768`. -/
noncomputable def normalized_rms (frame : Frame) : ℝ :=
  Real.sqrt ((sumSq frame : ℝ) / frame.length) / 32768

/-- Model of `_is_silence` (lines 47–55).  The code computes
`rms = sqrt(mean(audio.astype(float32) ** 2))`, `normalized_rms = rms / 32768.0`
and returns `normalized_rms < self.silence_threshold`.

For a nonempty frame, in exact arithmetic, `sqrt(m/n)/32768 < t` is impossible
when `t ≤ 0` (the left side is nonnegative) and is equivalent to
`m/n < (32768·t)²` when `0 < t`; the definition below uses that squared form so
that the function is executable (`Real.sqrt` is not), and
`is_silence_iff_normalized_rms` proves it equal to the source comparison.

For an empty frame `np.mean` of an empty array yields NaN, `sqrt(NaN)` is NaN,
and `NaN < t` is false for every `t`, so the function returns `False`. -/
def is_silence (frame : Frame) (threshold : ℚ) : Bool :=
  if frame.isEmpty then false
  else
    decide (0 < threshold) &&
      decide ((sumSq frame : ℚ) / frame.length < (32768 * threshold) ^ 2)

lemma sumSq_nonneg (frame : Frame) : 0 ≤ sumSq frame := by
  refine List.sum_nonneg ?_
  intro x hx
  obtain ⟨s, _, rfl⟩ := List.mem_map.mp hx
  exact mul_self_nonneg s

/-- The executable `is_silence` agrees with the source-level comparison
`sqrt(mean(samples²))/32768 < threshold` on every nonempty frame. -/
lemma is_silence_iff_normalized_rms (frame : Frame) (t : ℚ) (h : frame ≠ []) :
    is_silence frame t = true ↔ normalized_rms frame < (t : ℝ) := by
  have hne : frame.isEmpty = false := by
    simpa [List.isEmpty_iff] using h
  have hlen : 0 < (frame.length : ℝ) := by
    exact_mod_cast List.length_pos.mpr h
  have hm : (0 : ℝ) ≤ (sumSq frame : ℝ) / frame.length := by
    apply div_nonneg _ (le_of_lt hlen)
    exact_mod_cast sumSq_nonneg frame
  rw [is_silence, hne]
  simp only [Bool.false_eq_true, if_false, Bool.and_eq_true, decide_eq_true_eq]
  unfold normalized_rms
  rw [div_lt_iff (by norm_num : (0:ℝ) < 32768)]
  constructor
  · rintro ⟨ht, hlt⟩
    have ht' : (0:ℝ) < (t : ℝ) * 32768 := by
      have : (0:ℝ) < (t : ℝ) := by exact_mod_cast ht
      nlinarith
    rw [Real.sqrt_lt' ht']
    have : ((sumSq frame : ℚ) / (frame.length : ℚ) : ℝ) < (((32768 * t) ^ 2 : ℚ) : ℝ) := by
      exact_mod_cast hlt
    push_cast at this
    nlinarith [this]
  · intro hlt
    have ht : (0:ℝ) < (t : ℝ) := by
      have h0 : (0:ℝ) ≤ Real.sqrt ((sumSq frame : ℝ) / frame.length) := Real.sqrt_nonneg _
      nlinarith [hlt, h0]
    have ht' : (0:ℝ) < (t : ℝ) * 32768 := by nlinarith
    rw [Real.sqrt_lt' ht'] at hlt
    refine ⟨by exact_mod_cast ht, ?_⟩
    have : ((sumSq frame : ℤ) : ℝ) / (frame.length : ℝ) < ((32768 * (t:ℝ)) ^ 2) := by
      nlinarith [hlt]
    exact_mod_cast this

/-- The constructor arguments of `SimpleAudioRecorder.__init__` that the capture
loop reads (lines 19–35); `chunk_size` is the frame size in samples. -/
structure Config where
  silence_threshold : ℚ
  silence_duration : ℚ
  sample_rate : ℕ
  chunk_size : ℕ
deriving Repr, DecidableEq

/-- The silence cutoff expression of line 88:
`self.silence_duration * self.sample_rate / self.chunk_size`. -/
def silenceLimit (cfg : Config) : ℚ :=
  cfg.silence_duration * cfg.sample_rate / cfg.chunk_size

/-- The mutable locals of one outer-loop iteration of `_record_audio`
(lines 70–72): `frames`, `silence_count`, `speech_detected`. -/
structure SegState where
  frames : List Frame
  silence_count : ℕ
  speech_detected : Bool
deriving Repr, DecidableEq

/-- The locals as reset at the top of each outer-loop iteration (lines 70–72). -/
def initState : SegState := ⟨[], 0, false⟩

/-- One pass of the inner `while` body (lines 76–89) on frame `data`: returns
the updated locals and whether the `break` at line 89 fired.

* not silent (line 78): append the frame, reset `silence_count`, set
  `speech_detected` (the body prints the speech-detected line on the first such
  frame; logging is not modelled);
* silent while `speech_detected` (line 84): append the frame, increment
  `silence_count`, and break when the new count strictly exceeds
  `silence_duration * sample_rate / chunk_size`;
* silent while waiting: fall through, locals unchanged. -/
def stepFrame (cfg : Config) (s : SegState) (data : Frame) : SegState × Bool :=
  if is_silence data cfg.silence_threshold = false then
    (⟨s.frames ++ [data], 0, true⟩, false)
  else if s.speech_detected = true then
    (⟨s.frames ++ [data], s.silence_count + 1, true⟩,
      decide (((s.silence_count : ℚ) + 1) > silenceLimit cfg))
  else (s, false)

/-- The inner `while self.is_recording` loop (lines 75–89) run over a finite
frame supply with the `is_recording` flag held true: returns the locals on
exit, whether the exit was the `break` at line 89 (rather than exhaustion of
the supply), and the frames not yet read. -/
def innerLoop (cfg : Config) : SegState → List Frame → SegState × Bool × List Frame
  | s, [] => (s, false, [])
  | s, data :: rest =>
    if (stepFrame cfg s data).2 then ((stepFrame cfg s data).1, true, rest)
    else innerLoop cfg (stepFrame cfg s data).1 rest

lemma innerLoop_rest_length_lt (cfg : Config) :
    ∀ (input : List Frame) (s : SegState),
      (innerLoop cfg s input).2.1 = true →
      (innerLoop cfg s input).2.2.length < input.length := by
  intro input
  induction input with
  | nil => intro s h; simp [innerLoop] at h
  | cons data rest ih =>
    intro s h
    rw [innerLoop] at h ⊢
    by_cases hb : (stepFrame cfg s data).2
    · simp only [hb, if_true]
      simp [List.length_cons, Nat.lt_succ_self]
    · simp only [hb, if_false] at h ⊢
      exact Nat.lt_trans (ih _ h) (Nat.lt_succ_self _)

/-- The outer `while self.is_recording` loop of `_record_audio` (lines 69–125)
with the flag held true throughout, run over a finite frame supply: the list of
utterance buffers handed to the transcription block (line 91 onward), in order.
Each `break` of the inner loop reaches line 91 with a nonempty buffer and
`speech_detected` set, so each break emits its buffer; when the supply runs out
the real loop would block in `stream.read`, so nothing further is emitted. -/
def segRun (cfg : Config) (input : List Frame) : List (List Frame) :=
  if h : (innerLoop cfg initState input).2.1 = true then
    (innerLoop cfg initState input).1.frames ::
      segRun cfg (innerLoop cfg initState input).2.2
  else []
termination_by input.length
decreasing_by exact innerLoop_rest_length_lt cfg input initState h

lemma segRun_break {cfg : Config} {input : List Frame} {s : SegState}
    {rest : List Frame} (h : innerLoop cfg initState input = (s, true, rest)) :
    segRun cfg input = s.frames :: segRun cfg rest := by
  rw [segRun, h]
  simp

lemma segRun_noBreak {cfg : Config} {input : List Frame} {s : SegState}
    {rest : List Frame} (h : innerLoop cfg initState input = (s, false, rest)) :
    segRun cfg input = [] := by
  rw [segRun, h]
  simp

lemma stepFrame_speech {cfg : Config} {s : SegState} {data : Frame}
    (h : is_silence data cfg.silence_threshold = false) :
    stepFrame cfg s data = (⟨s.frames ++ [data], 0, true⟩, false) := by
  rw [stepFrame, if_pos h]

lemma stepFrame_silent_waiting {cfg : Config} {s : SegState} {data : Frame}
    (h : is_silence data cfg.silence_threshold = true)
    (hs : s.speech_detected = false) :
    stepFrame cfg s data = (s, false) := by
  rw [stepFrame, if_neg (by simp [h]), if_neg (by simp [hs])]

lemma stepFrame_silent_capturing {cfg : Config} {s : SegState} {data : Frame}
    (h : is_silence data cfg.silence_threshold = true)
    (hs : s.speech_detected = true) :
    stepFrame cfg s data =
      (⟨s.frames ++ [data], s.silence_count + 1, true⟩,
        decide (((s.silence_count : ℚ) + 1) > silenceLimit cfg)) := by
  rw [stepFrame, if_neg (by simp [h]), if_pos hs]

lemma innerLoop_leading_silence {cfg : Config} {fsil : Frame}
    (hsil : is_silence fsil cfg.silence_threshold = true) {s : SegState}
    (hs : s.speech_detected = false) :
    ∀ (N : ℕ) (rest : List Frame),
      innerLoop cfg s (List.replicate N fsil ++ rest) = innerLoop cfg s rest := by
  intro N
  induction N with
  | zero => intro rest; simp
  | succ n ih =>
    intro rest
    rw [List.replicate_succ, List.cons_append, innerLoop,
      stepFrame_silent_waiting hsil hs]
    simpa using ih rest

lemma innerLoop_speech_run {cfg : Config} :
    ∀ (sp : List Frame), sp ≠ [] →
      (∀ f ∈ sp, is_silence f cfg.silence_threshold = false) →
      ∀ (s : SegState) (rest : List Frame),
        innerLoop cfg s (sp ++ rest) = innerLoop cfg ⟨s.frames ++ sp, 0, true⟩ rest := by
  intro sp
  induction sp with
  | nil => intro h; exact absurd rfl h
  | cons f sp' ih =>
    intro _ hsp s rest
    rw [List.cons_append, innerLoop, stepFrame_speech (hsp f (List.mem_cons_self f sp'))]
    simp only [if_false, Bool.false_eq_true]
    by_cases hsp' : sp' = []
    · subst hsp'
      simp
    · rw [ih hsp' (fun g hg => hsp g (List.mem_cons_of_mem f hg)) _ rest]
      simp

lemma innerLoop_trailing_silence_noBreak {cfg : Config} {fsil : Frame}
    (hsil : is_silence fsil cfg.silence_threshold = true) :
    ∀ (K : ℕ) (B : List Frame) (c : ℕ),
      ((c : ℚ) + K ≤ silenceLimit cfg) →
      innerLoop cfg ⟨B, c, true⟩ (List.replicate K fsil) =
        (⟨B ++ List.replicate K fsil, c + K, true⟩, false, []) := by
  intro K
  induction K with
  | zero => intro B c _; simp [innerLoop]
  | succ k ih =>
    intro B c h
    have hnb : ¬ (((c : ℚ) + 1) > silenceLimit cfg) := by
      push_cast at h ⊢
      nlinarith [h]
    have hrw : innerLoop cfg ⟨B, c, true⟩ (List.replicate (k + 1) fsil)
        = innerLoop cfg ⟨B ++ [fsil], c + 1, true⟩ (List.replicate k fsil) := by
      rw [List.replicate_succ, innerLoop, stepFrame_silent_capturing hsil rfl]
      simp [hnb]
    rw [hrw, ih (B ++ [fsil]) (c + 1) (by push_cast at h ⊢; nlinarith [h])]
    have h1 : (B ++ [fsil]) ++ List.replicate k fsil
        = B ++ List.replicate (k + 1) fsil := by
      simp [List.replicate_succ]
    have h2 : c + 1 + k = c + (k + 1) := by omega
    rw [h1, h2]

lemma innerLoop_trailing_silence_break {cfg : Config} {fsil : Frame}
    (hsil : is_silence fsil cfg.silence_threshold = true)
    (hL : 0 ≤ silenceLimit cfg) :
    ∀ (K : ℕ) (B : List Frame) (c : ℕ) (tail : List Frame),
      ((c : ℚ) ≤ silenceLimit cfg) →
      (Nat.floor (silenceLimit cfg) < c + K) →
      innerLoop cfg ⟨B, c, true⟩ (List.replicate K fsil ++ tail) =
        (⟨B ++ List.replicate (Nat.floor (silenceLimit cfg) + 1 - c) fsil,
            Nat.floor (silenceLimit cfg) + 1, true⟩, true,
          List.replicate (c + K - (Nat.floor (silenceLimit cfg) + 1)) fsil ++ tail) := by
  intro K
  induction K with
  | zero =>
    intro B c tail hc hK
    exact absurd hK (by simpa using Nat.le_floor hc)
  | succ k ih =>
    intro B c tail hc hK
    have hcle : c ≤ Nat.floor (silenceLimit cfg) := Nat.le_floor hc
    by_cases hbr : silenceLimit cfg < (c : ℚ) + 1
    · have hflt : Nat.floor (silenceLimit cfg) < c + 1 := by
        rw [Nat.floor_lt hL]
        push_cast
        exact hbr
      have hrw : innerLoop cfg ⟨B, c, true⟩ (List.replicate (k + 1) fsil ++ tail)
          = (⟨B ++ [fsil], c + 1, true⟩, true, List.replicate k fsil ++ tail) := by
        rw [List.replicate_succ, List.cons_append, innerLoop,
          stepFrame_silent_capturing hsil rfl]
        simp [hbr]
      have e1 : Nat.floor (silenceLimit cfg) + 1 - c = 1 := by omega
      have e2 : Nat.floor (silenceLimit cfg) + 1 = c + 1 := by omega
      have e4 : c + (k + 1) - (c + 1) = k := by omega
      rw [hrw, e1, e2, e4]
      simp
    · push_neg at hbr
      have hc1 : c + 1 ≤ Nat.floor (silenceLimit cfg) := by
        apply Nat.le_floor
        push_cast
        exact hbr
      have hnb : ¬ (((c : ℚ) + 1) > silenceLimit cfg) := not_lt.mpr hbr
      have hrw : innerLoop cfg ⟨B, c, true⟩ (List.replicate (k + 1) fsil ++ tail)
          = innerLoop cfg ⟨B ++ [fsil], c + 1, true⟩ (List.replicate k fsil ++ tail) := by
        rw [List.replicate_succ, List.cons_append, innerLoop,
          stepFrame_silent_capturing hsil rfl]
        simp [hnb]
      rw [hrw, ih (B ++ [fsil]) (c + 1) tail (by push_cast; exact hbr) (by omega)]
      have e1 : B ++ List.replicate (Nat.floor (silenceLimit cfg) + 1 - c) fsil
          = (B ++ [fsil]) ++
              List.replicate (Nat.floor (silenceLimit cfg) + 1 - (c + 1)) fsil := by
        rw [List.append_assoc]
        congr 1
        rw [show Nat.floor (silenceLimit cfg) + 1 - c
            = (Nat.floor (silenceLimit cfg) + 1 - (c + 1)) + 1 by omega]
        rw [List.replicate_succ]
        rfl
      have e3 : c + 1 + k - (Nat.floor (silenceLimit cfg) + 1)
          = c + (k + 1) - (Nat.floor (silenceLimit cfg) + 1) := by omega
      rw [e1, e3]

/-- Composition: from the initial locals, an input of shape
`silence^N ++ speech ++ silence^K ++ tail` (with at least one speech frame and
`K` past the floor of the silence limit) drives the inner loop to the `break`
of line 89.  The buffer then holds no leading silence, all speech frames in
order, and exactly `⌊limit⌋ + 1` trailing silent frames. -/
lemma innerLoop_utterance {cfg : Config} {fsil : Frame} (sp : List Frame)
    (hsil : is_silence fsil cfg.silence_threshold = true)
    (hsp : ∀ f ∈ sp, is_silence f cfg.silence_threshold = false)
    (hne : sp ≠ []) (hL : 0 ≤ silenceLimit cfg) (K : ℕ)
    (hK : Nat.floor (silenceLimit cfg) < K) (N : ℕ) (tail : List Frame) :
    innerLoop cfg initState
        (List.replicate N fsil ++ sp ++ List.replicate K fsil ++ tail) =
      (⟨sp ++ List.replicate (Nat.floor (silenceLimit cfg) + 1) fsil,
          Nat.floor (silenceLimit cfg) + 1, true⟩, true,
        List.replicate (K - (Nat.floor (silenceLimit cfg) + 1)) fsil ++ tail) := by
  rw [show List.replicate N fsil ++ sp ++ List.replicate K fsil ++ tail
      = List.replicate N fsil ++ (sp ++ (List.replicate K fsil ++ tail)) from by
    simp [List.append_assoc]]
  rw [innerLoop_leading_silence hsil rfl N (sp ++ (List.replicate K fsil ++ tail))]
  rw [innerLoop_speech_run sp hne hsp initState (List.replicate K fsil ++ tail)]
  have h0 : ((0 : ℕ) : ℚ) ≤ silenceLimit cfg := by simpa using hL
  have := innerLoop_trailing_silence_break hsil hL K sp 0 tail h0 (by omega)
  simp only [List.nil_append, initState] at this ⊢
  rw [this]
  simp

/-- An all-silent supply keeps the loop in the waiting state: the inner loop
exhausts the input with the locals unchanged. -/
lemma innerLoop_all_silent {cfg : Config} {fsil : Frame}
    (hsil : is_silence fsil cfg.silence_threshold = true) (R : ℕ) :
    innerLoop cfg initState (List.replicate R fsil) = (initState, false, []) := by
  have h : innerLoop cfg initState (List.replicate R fsil ++ []) =
      innerLoop cfg initState [] :=
    innerLoop_leading_silence hsil rfl R []
  simpa using h

/-- Observable outcome of one execution of the transcription block
(lines 92–125): the texts the downstream callback was invoked with, whether
the temporary WAV file still exists afterwards, whether an exception escaped
the block, and the value of `is_recording` afterwards. -/
structure BlockResult where
  calls : List Text
  tempExists : Bool
  escaped : Bool
  flag : Bool
deriving Repr, DecidableEq

/-- Model of the transcription block (lines 92–125) run on one utterance
buffer.  `tr` is the oracle for
`self.model.transcribe(temp_filename, language="en")["text"]`: `Except.ok raw`
when the model returns text `raw`, `Except.error e` when it raises; `cb` is
the downstream callback, returning the value of `self.is_recording` after the
callback returns (the callback may call `stop()`/`start()` on the recorder)
together with its own outcome (it may raise).

The block creates the temporary WAV file (lines 93–101, file now exists), then
runs `try:` transcribe, strip the text and — only if the stripped text is
nonempty (Python truthiness of `if text:`) — invoke the callback
(lines 104–113); `except Exception:` catches any exception raised by the
transcription call or by the callback and prints it (lines 115–116); the
`finally:` clause unlinks the temporary file on every path (lines 118–123).
Hence in every branch below the file is gone and nothing escapes. -/
def transcriptionBlock (tr : Except Text Text) (cb : Text → Bool × Except Text Unit)
    (flag : Bool) : BlockResult :=
  match tr with
  | Except.error _ => ⟨[], false, false, flag⟩
  | Except.ok raw =>
    if strip raw = [] then ⟨[], false, false, flag⟩
    else
      match cb (strip raw) with
      | (flag2, Except.ok _) => ⟨[strip raw], false, false, flag2⟩
      | (flag2, Except.error _) => ⟨[strip raw], false, false, flag2⟩

/-- The recorder state visible to `stop()` (lines 134–138): the `is_recording`
flag and whether the recording thread exists and is alive. -/
structure ControllerState where
  is_recording : Bool
  thread_alive : Bool
deriving Repr, DecidableEq

/-- Model of `stop()` (lines 134–138): clear `is_recording`, then join the
recording thread if there is one and it is alive.  `Thread.join` blocks until
the thread terminates when called from a different thread, but raises
`RuntimeError: cannot join current thread` when the calling thread is the
recording thread itself — which is the situation when `stop()` is invoked from
inside the downstream callback.  The returned `Except` is the outcome of the
call; the flag is cleared before the join is attempted, so it is cleared even
on the raising path. -/
def stop (callerIsLoopThread : Bool) (st : ControllerState) :
    ControllerState × Except Text Unit :=
  if st.thread_alive then
    if callerIsLoopThread then
      (⟨false, true⟩, Except.error "cannot join current thread".data)
    else (⟨false, false⟩, Except.ok ())
  else (⟨false, st.thread_alive⟩, Except.ok ())

/-- Observable outcome of a `_record_audio` run over a finite frame supply:
callback invocations in order, utterance buffers handed to the transcription
block in order, the frames never read from the device, and the final
`is_recording` value. -/
structure RunResult where
  calls : List Text
  buffers : List (List Frame)
  leftover : List Frame
  flag : Bool
deriving Repr, DecidableEq

/-- Model of `_record_audio` (lines 57–128) over a finite frame supply, where
the only mutation of `is_recording` is the one performed by the downstream
callback (returned by `cb`); the flag is therefore constant while the inner
loop runs, so the inner loop exits only through the `break` of line 89.

* flag `false` at the outer `while` check (line 69): the function returns at
  once, reading no further frames (they remain in `leftover`);
* inner loop breaks: the transcription block runs on the buffer with the flag
  it may mutate, and the outer loop continues with the remaining supply;
* supply exhausted without a break: the real loop would block forever in
  `stream.read`, so the run is cut here with nothing further observable. -/
def runRecord (cfg : Config) (tr : List Frame → Except Text Text)
    (cb : Text → Bool × Except Text Unit) : Bool → List Frame → RunResult
  | false, input => ⟨[], [], input, false⟩
  | true, input =>
    if h : (innerLoop cfg initState input).2.1 = true then
      let br := transcriptionBlock (tr (innerLoop cfg initState input).1.frames) cb true
      let r := runRecord cfg tr cb br.flag (innerLoop cfg initState input).2.2
      ⟨br.calls ++ r.calls,
        (innerLoop cfg initState input).1.frames :: r.buffers, r.leftover, r.flag⟩
    else ⟨[], [], [], true⟩
termination_by _ input => input.length
decreasing_by exact innerLoop_rest_length_lt cfg input initState h

lemma runRecord_stopped (cfg : Config) (tr : List Frame → Except Text Text)
    (cb : Text → Bool × Except Text Unit) (input : List Frame) :
    runRecord cfg tr cb false input = ⟨[], [], input, false⟩ := by
  rw [runRecord]

lemma runRecord_break {cfg : Config} {tr : List Frame → Except Text Text}
    {cb : Text → Bool × Except Text Unit} {input : List Frame} {s : SegState}
    {rest : List Frame} (h : innerLoop cfg initState input = (s, true, rest)) :
    runRecord cfg tr cb true input =
      ⟨(transcriptionBlock (tr s.frames) cb true).calls ++
          (runRecord cfg tr cb (transcriptionBlock (tr s.frames) cb true).flag rest).calls,
        s.frames ::
          (runRecord cfg tr cb (transcriptionBlock (tr s.frames) cb true).flag rest).buffers,
        (runRecord cfg tr cb (transcriptionBlock (tr s.frames) cb true).flag rest).leftover,
        (runRecord cfg tr cb (transcriptionBlock (tr s.frames) cb true).flag rest).flag⟩ := by
  rw [runRecord, h]
  simp

lemma runRecord_exhausted {cfg : Config} {tr : List Frame → Except Text Text}
    {cb : Text → Bool × Except Text Unit} {input : List Frame} {s : SegState}
    {rest : List Frame} (h : innerLoop cfg initState input = (s, false, rest)) :
    runRecord cfg tr cb true input = ⟨[], [], [], true⟩ := by
  rw [runRecord, h]
  simp

/-- Model of `_record_audio` when `is_recording` is cleared by another thread
while the recorder is listening: the inner `while self.is_recording` check
(line 75) fails after the loop has consumed `input`, the inner loop exits with
its current locals, and control reaches line 91, where
`if frames and speech_detected:` decides whether the partial buffer is handed
to the transcription block (which then runs with the flag already false).
Returns the buffer handed to transcription (if any) and the callback
invocations. -/
def stopFlush (cfg : Config) (tr : List Frame → Except Text Text)
    (cb : Text → Bool × Except Text Unit) (input : List Frame) :
    Option (List Frame) × List Text :=
  if (!(innerLoop cfg initState input).1.frames.isEmpty
      && (innerLoop cfg initState input).1.speech_detected) then
    (some (innerLoop cfg initState input).1.frames,
      (transcriptionBlock (tr (innerLoop cfg initState input).1.frames) cb false).calls)
  else (none, [])

/-- A downstream callback that does not touch the recorder and returns
normally. -/
def cbOk : Text → Bool × Except Text Unit := fun _ => (true, Except.ok ())

/-- A transcription oracle that always succeeds with the fixed text `s`. -/
def trOk (s : Text) : List Frame → Except Text Text := fun _ => Except.ok s

/-- The downstream callback of the re-entrancy scenario: it invokes `stop()` on
the recorder from inside the capture thread (thread alive, caller is the loop
thread) and lets the resulting exception propagate out of the callback. -/
def cbStop : Text → Bool × Except Text Unit :=
  fun _ => ((stop true ⟨true, true⟩).1.is_recording,
    Except.map (fun _ => ()) (stop true ⟨true, true⟩).2)

/-- The default configuration of `SimpleAudioRecorder.__init__` (lines 19–28):
silence threshold 0.01, silence duration 2.0 s, sample rate 16000 Hz, chunk
size 1024 samples. -/
def cfgDefault : Config := ⟨1 / 100, 2, 16000, 1024⟩

/-- A configuration whose silence limit
`silence_duration * sample_rate / chunk_size` is the exact integer 16:
threshold 0.01, silence duration 1.0 s, sample rate 16 Hz, chunk size 1. -/
def cfgInt : Config := ⟨1 / 100, 1, 16, 1⟩

lemma silenceLimit_cfgDefault : silenceLimit cfgDefault = 125 / 4 := by
  norm_num [silenceLimit, cfgDefault]

lemma silenceLimit_cfgDefault_nonneg : 0 ≤ silenceLimit cfgDefault := by
  rw [silenceLimit_cfgDefault]
  norm_num

lemma floor_silenceLimit_cfgDefault : Nat.floor (silenceLimit cfgDefault) = 31 := by
  rw [silenceLimit_cfgDefault]
  norm_num [Nat.floor_eq_iff]

lemma ceil_silenceLimit_cfgDefault : Nat.ceil (silenceLimit cfgDefault) = 32 := by
  rw [silenceLimit_cfgDefault]
  norm_num [Nat.ceil_eq_iff]

lemma silenceLimit_cfgInt : silenceLimit cfgInt = 16 := by
  norm_num [silenceLimit, cfgInt]

lemma silenceLimit_cfgInt_nonneg : 0 ≤ silenceLimit cfgInt := by
  rw [silenceLimit_cfgInt]
  norm_num

lemma floor_silenceLimit_cfgInt : Nat.floor (silenceLimit cfgInt) = 16 := by
  rw [silenceLimit_cfgInt]
  norm_num

lemma ceil_silenceLimit_cfgInt : Nat.ceil (silenceLimit cfgInt) = 16 := by
  rw [silenceLimit_cfgInt]
  norm_num

lemma is_silence_zero_default :
    is_silence [0] cfgDefault.silence_threshold = true := by
  norm_num [is_silence, sumSq, cfgDefault]

lemma is_silence_zero_int :
    is_silence [0] cfgInt.silence_threshold = true := by
  norm_num [is_silence, sumSq, cfgInt]

lemma not_silence_1000_default :
    is_silence [1000] cfgDefault.silence_threshold = false := by
  norm_num [is_silence, sumSq, cfgDefault]

lemma not_silence_2000_default :
    is_silence [2000] cfgDefault.silence_threshold = false := by
  norm_num [is_silence, sumSq, cfgDefault]

lemma not_silence_1000_int :
    is_silence [1000] cfgInt.silence_threshold = false := by
  norm_num [is_silence, sumSq, cfgInt]

/-- A run whose frames are `silence^N ++ speech ++ silence^K`, with `K` past
the floor of the silence limit, emits exactly one buffer: the speech frames
followed by exactly `⌊limit⌋ + 1` trailing silent frames, with no leading
silence; the leftover silent frames keep the loop waiting and emit nothing. -/
lemma segRun_one_utterance {cfg : Config} {fsil : Frame} (sp : List Frame)
    (hsil : is_silence fsil cfg.silence_threshold = true)
    (hsp : ∀ f ∈ sp, is_silence f cfg.silence_threshold = false)
    (hne : sp ≠ []) (hL : 0 ≤ silenceLimit cfg) (K : ℕ)
    (hK : Nat.floor (silenceLimit cfg) < K) (N : ℕ) :
    segRun cfg (List.replicate N fsil ++ sp ++ List.replicate K fsil)
      = [sp ++ List.replicate (Nat.floor (silenceLimit cfg) + 1) fsil] := by
  have h1 := innerLoop_utterance sp hsil hsp hne hL K hK N ([] : List Frame)
  rw [List.append_nil, List.append_nil] at h1
  rw [segRun_break h1]
  rw [segRun_noBreak (innerLoop_all_silent hsil (K - (Nat.floor (silenceLimit cfg) + 1)))]

/-- Speech followed by at most `⌊limit⌋` silent frames does not reach the
break: nothing is emitted (the buffer is still in flight when the supply
ends). -/
lemma segRun_below_limit {cfg : Config} {fsil : Frame} (sp : List Frame)
    (hsil : is_silence fsil cfg.silence_threshold = true)
    (hsp : ∀ f ∈ sp, is_silence f cfg.silence_threshold = false)
    (hne : sp ≠ []) (j : ℕ) (hj : ((j : ℚ) ≤ silenceLimit cfg)) :
    segRun cfg (sp ++ List.replicate j fsil) = [] := by
  have h1 : innerLoop cfg initState (sp ++ List.replicate j fsil)
      = (⟨sp ++ List.replicate j fsil, 0 + j, true⟩, false, []) := by
    rw [innerLoop_speech_run sp hne hsp initState (List.replicate j fsil)]
    have := innerLoop_trailing_silence_noBreak hsil j sp 0 (by simpa using hj)
    simpa [initState] using this
  exact segRun_noBreak h1

/-- The inner loop on a one-speech-frame utterance followed by exactly
`⌊limit⌋ + 1` silent frames breaks exactly at the end of those silent frames,
leaving `tail` unread. -/
lemma innerLoop_one_speech_utterance {cfg : Config} {fsil fsp : Frame}
    (hsil : is_silence fsil cfg.silence_threshold = true)
    (hsp : is_silence fsp cfg.silence_threshold = false)
    (hL : 0 ≤ silenceLimit cfg) (tail : List Frame) :
    innerLoop cfg initState
        ((fsp :: List.replicate (Nat.floor (silenceLimit cfg) + 1) fsil) ++ tail)
      = (⟨fsp :: List.replicate (Nat.floor (silenceLimit cfg) + 1) fsil,
          Nat.floor (silenceLimit cfg) + 1, true⟩, true, tail) := by
  have h1 := innerLoop_utterance [fsp] hsil (by simpa using hsp)
    (by simp) hL (Nat.floor (silenceLimit cfg) + 1) (by omega) 0 tail
  simpa using h1

lemma runRecord_nil (cfg : Config) (tr : List Frame → Except Text Text)
    (cb : Text → Bool × Except Text Unit) :
    runRecord cfg tr cb true [] = ⟨[], [], [], true⟩ :=
  runRecord_exhausted (by rw [innerLoop])

/-- A run over two back-to-back single-speech-frame utterances, with a callback
that always leaves the flag true, processes both utterances: the loop
continues past the first transcription block whatever its outcome. -/
lemma runRecord_two_utterances {cfg : Config} {fsil fsp1 fsp2 : Frame}
    {tr : List Frame → Except Text Text} {cb : Text → Bool × Except Text Unit}
    (hsil : is_silence fsil cfg.silence_threshold = true)
    (hsp1 : is_silence fsp1 cfg.silence_threshold = false)
    (hsp2 : is_silence fsp2 cfg.silence_threshold = false)
    (hL : 0 ≤ silenceLimit cfg)
    (hflag1 : (transcriptionBlock
        (tr (fsp1 :: List.replicate (Nat.floor (silenceLimit cfg) + 1) fsil))
        cb true).flag = true)
    (hflag2 : (transcriptionBlock
        (tr (fsp2 :: List.replicate (Nat.floor (silenceLimit cfg) + 1) fsil))
        cb true).flag = true) :
    runRecord cfg tr cb true
        ((fsp1 :: List.replicate (Nat.floor (silenceLimit cfg) + 1) fsil) ++
          (fsp2 :: List.replicate (Nat.floor (silenceLimit cfg) + 1) fsil))
      = ⟨(transcriptionBlock
            (tr (fsp1 :: List.replicate (Nat.floor (silenceLimit cfg) + 1) fsil))
            cb true).calls ++
          (transcriptionBlock
            (tr (fsp2 :: List.replicate (Nat.floor (silenceLimit cfg) + 1) fsil))
            cb true).calls,
          [fsp1 :: List.replicate (Nat.floor (silenceLimit cfg) + 1) fsil,
            fsp2 :: List.replicate (Nat.floor (silenceLimit cfg) + 1) fsil],
          [], true⟩ := by
  rw [runRecord_break (innerLoop_one_speech_utterance hsil hsp1 hL
    (fsp2 :: List.replicate (Nat.floor (silenceLimit cfg) + 1) fsil))]
  rw [hflag1]
  have h2 : innerLoop cfg initState
      (fsp2 :: List.replicate (Nat.floor (silenceLimit cfg) + 1) fsil)
      = (⟨fsp2 :: List.replicate (Nat.floor (silenceLimit cfg) + 1) fsil,
          Nat.floor (silenceLimit cfg) + 1, true⟩, true, []) := by
    have := innerLoop_one_speech_utterance hsil hsp2 hL ([] : List Frame)
    simpa using this
  rw [runRecord_break h2]
  rw [hflag2, runRecord_nil]
  simp

/-- A downstream callback that raises on every invocation but leaves the
`is_recording` flag true (it does not call `stop()`). -/
def cbRaise (e : Text) : Text → Bool × Except Text Unit :=
  fun _ => (true, Except.error e)

lemma transcriptionBlock_error (e : Text) (cb : Text → Bool × Except Text Unit)
    (flag : Bool) :
    transcriptionBlock (Except.error e) cb flag = ⟨[], false, false, flag⟩ := rfl

lemma transcriptionBlock_empty {raw : Text} (h : strip raw = [])
    (cb : Text → Bool × Except Text Unit) (flag : Bool) :
    transcriptionBlock (Except.ok raw) cb flag = ⟨[], false, false, flag⟩ := by
  simp only [transcriptionBlock]
  rw [if_pos h]

lemma transcriptionBlock_ok {raw : Text} (hraw : strip raw ≠ [])
    (cb : Text → Bool × Except Text Unit) (flag : Bool) :
    transcriptionBlock (Except.ok raw) cb flag
      = ⟨[strip raw], false, false, (cb (strip raw)).1⟩ := by
  simp only [transcriptionBlock]
  rw [if_neg hraw]
  rcases hcb : cb (strip raw) with ⟨flag2, r⟩
  cases r <;> simp [hcb]

/-- C3 counterexample: the one-sample frame `[1]` has normalized RMS exactly
`1/32768`; with the threshold set to that same value, the claim says the frame
is classified as silence, but `_is_silence` uses strict `<` (line 55) and
returns `False`. -/
theorem C3_counterexample :
    normalized_rms [1] = ((1 / 32768 : ℚ) : ℝ) ∧
      is_silence [1] (1 / 32768) = false := by
  constructor
  · simp [normalized_rms, sumSq]
  · norm_num [is_silence, sumSq]

/-- C3 (amended): for every nonempty frame and every threshold, `_is_silence`
returns true exactly when the frame's RMS normalized by 32768 is strictly
below the threshold; at the boundary, a frame whose normalized RMS equals the
threshold is classified as speech (not silence), because the comparison at
line 55 is strict. -/
theorem C3_rms_strict (frame : Frame) (t : ℚ) (h : frame ≠ []) :
    (is_silence frame t = true ↔ normalized_rms frame < (t : ℝ)) ∧
      (normalized_rms frame = (t : ℝ) → is_silence frame t = false) := by
  refine ⟨is_silence_iff_normalized_rms frame t h, ?_⟩
  intro heq
  cases hb : is_silence frame t with
  | false => rfl
  | true =>
    have hlt := (is_silence_iff_normalized_rms frame t h).mp hb
    rw [heq] at hlt
    exact absurd hlt (lt_irrefl _)

/-- Witness for C3 at the concrete frame `[1]` and threshold 1. -/
theorem C3_witness :
    (is_silence [1] 1 = true ↔ normalized_rms [1] < ((1 : ℚ) : ℝ)) ∧
      (normalized_rms [1] = ((1 : ℚ) : ℝ) → is_silence [1] 1 = false) :=
  C3_rms_strict [1] 1 (by decide)

/-- C4 counterexample: for the empty frame `np.mean` of an empty array yields
NaN, every comparison with NaN is false, so `_is_silence` returns `False` even
for the threshold 1 > 0 — the empty frame is NOT classified as silence,
contrary to the claim. -/
theorem C4_counterexample : is_silence [] 1 = false := rfl

/-- C4 (amended): a nonempty all-zero frame is classified as silence for every
threshold greater than zero (its RMS is 0), but the empty frame is not: there
the NaN produced by the mean of an empty array makes the comparison false for
every threshold. -/
theorem C4_zero_frames :
    (∀ (t : ℚ) (n : ℕ), 0 < t → 0 < n →
        is_silence (List.replicate n 0) t = true) ∧
      ∀ t : ℚ, is_silence [] t = false := by
  constructor
  · intro t n ht hn
    have hne : (List.replicate n (0 : ℤ)).isEmpty = false := by
      cases n with
      | zero => exact absurd hn (lt_irrefl 0)
      | succ m => simp [List.replicate_succ]
    rw [is_silence, hne]
    simp only [Bool.false_eq_true, if_false, Bool.and_eq_true, decide_eq_true_eq]
    refine ⟨ht, ?_⟩
    have hsq : sumSq (List.replicate n (0 : ℤ)) = 0 := by
      simp [sumSq]
    rw [hsq]
    have hpos : (0 : ℚ) < (32768 * t) ^ 2 := by nlinarith [mul_pos ht ht]
    simpa using hpos
  · intro t
    rfl

/-- Witness for C4 at the one-sample all-zero frame and threshold 1. -/
theorem C4_witness : is_silence (List.replicate 1 0) 1 = true :=
  C4_zero_frames.1 1 1 one_pos one_pos

/-- C5: with silence threshold 0.01, silence duration 2.0 s, sample rate
16000 and frame size 1024 (the claimed configuration), the silence limit is
2.0·16000/1024 = 31.25, so the break of line 89 fires when the
consecutive-silence count reaches 32: one speech frame followed by 32 silent
frames emits exactly one buffer of exactly those 33 frames, while only 31
silent frames after the speech frame emit nothing yet. -/
theorem C5_scenario (fsp fsil : Frame)
    (hsp : is_silence fsp cfgDefault.silence_threshold = false)
    (hsil : is_silence fsil cfgDefault.silence_threshold = true) :
    segRun cfgDefault (fsp :: List.replicate 32 fsil)
        = [fsp :: List.replicate 32 fsil] ∧
      (fsp :: List.replicate 32 fsil).length = 33 ∧
      segRun cfgDefault (fsp :: List.replicate 31 fsil) = [] := by
  refine ⟨?_, by simp, ?_⟩
  · have h := segRun_one_utterance [fsp] hsil (by simpa using hsp)
      (by simp) silenceLimit_cfgDefault_nonneg 32
      (by rw [floor_silenceLimit_cfgDefault]; omega) 0
    rw [floor_silenceLimit_cfgDefault] at h
    simpa using h
  · have h := segRun_below_limit [fsp] hsil (by simpa using hsp)
      (by simp) 31 (by rw [silenceLimit_cfgDefault]; norm_num)
    simpa using h

/-- Witness for C5 with the concrete speech frame `[1000]` and silent frame
`[0]`. -/
theorem C5_witness :
    segRun cfgDefault ([1000] :: List.replicate 32 [0])
        = [[1000] :: List.replicate 32 [0]] ∧
      (([1000] : Frame) :: List.replicate 32 [0]).length = 33 ∧
      segRun cfgDefault ([1000] :: List.replicate 31 [0]) = [] :=
  C5_scenario [1000] [0] not_silence_1000_default is_silence_zero_default

/-- C6 counterexample: with silence duration 1.0 s, sample rate 16 and frame
size 1 the ratio silence_duration·sample_rate/frame_size is the exact integer
16 = ceil(16).  Feeding one speech frame and then 16 consecutive silent frames
does NOT terminate the utterance (nothing is emitted): the break at line 89
requires the count to strictly exceed the ratio, so for an exact-integer ratio
it fires only at count 17, refuting the claimed ceil formula in the
exact-integer case. -/
theorem C6_counterexample :
    Nat.ceil (silenceLimit cfgInt) = 16 ∧
      segRun cfgInt ([[1000]] ++ List.replicate 16 [0]) = [] := by
  refine ⟨ceil_silenceLimit_cfgInt, ?_⟩
  exact segRun_below_limit [[1000]] is_silence_zero_int
    (by simpa using not_silence_1000_int)
    (by simp) 16 (by rw [silenceLimit_cfgInt]; norm_num)

/-- C6 (amended): for every configuration with nonnegative silence limit
q = silence_duration·sample_rate/frame_size, an in-progress utterance
terminates exactly when the count of consecutive trailing silent frames
reaches ⌊q⌋ + 1, the first count strictly exceeding q: with j trailing silent
frames after speech, nothing is emitted while j ≤ ⌊q⌋, and as soon as
j > ⌊q⌋ exactly one buffer is emitted, carrying exactly ⌊q⌋ + 1 trailing
silent frames.  ⌊q⌋ + 1 equals ⌈q⌉ when q is not an integer, but equals
⌈q⌉ + 1 when q is an exact integer. -/
theorem C6_floor_threshold (cfg : Config) (fsil : Frame) (sp : List Frame)
    (hsil : is_silence fsil cfg.silence_threshold = true)
    (hsp : ∀ f ∈ sp, is_silence f cfg.silence_threshold = false)
    (hne : sp ≠ []) (hL : 0 ≤ silenceLimit cfg) (j : ℕ) :
    (j ≤ Nat.floor (silenceLimit cfg) →
        segRun cfg (sp ++ List.replicate j fsil) = []) ∧
      (Nat.floor (silenceLimit cfg) < j →
        segRun cfg (sp ++ List.replicate j fsil)
          = [sp ++ List.replicate (Nat.floor (silenceLimit cfg) + 1) fsil]) := by
  constructor
  · intro hj
    apply segRun_below_limit sp hsil hsp hne j
    calc ((j : ℕ) : ℚ) ≤ ((Nat.floor (silenceLimit cfg) : ℕ) : ℚ) := by
          exact_mod_cast hj
      _ ≤ silenceLimit cfg := Nat.floor_le hL
  · intro hj
    have h := segRun_one_utterance sp hsil hsp hne hL j hj 0
    simpa using h

/-- Witness for C6 at the default configuration (limit 31.25) with 32 trailing
silent frames. -/
theorem C6_witness :
    segRun cfgDefault ([[1000]] ++ List.replicate 32 [0])
      = [[[1000]] ++ List.replicate (Nat.floor (silenceLimit cfgDefault) + 1) [0]] :=
  (C6_floor_threshold cfgDefault [0] [[1000]] is_silence_zero_default
      (by simpa using not_silence_1000_default) (by simp)
      silenceLimit_cfgDefault_nonneg 32).2
    (by simp [floor_silenceLimit_cfgDefault])

/-- C7 counterexample: with the exact-integer limit 16 (so silence-frame-count
⌈q⌉ = 16) and input [speech×1, silence×17] with K = 17 > 16, the single
emitted buffer contains all 17 trailing silent frames — strictly more than the
silence-frame-count — refuting the claim that at most silence-frame-count
trailing silent frames are buffered. -/
theorem C7_counterexample :
    segRun cfgInt ([[1000]] ++ List.replicate 17 [0])
        = [[[1000]] ++ List.replicate 17 [0]] ∧
      Nat.ceil (silenceLimit cfgInt) < 17 := by
  constructor
  · have h := segRun_one_utterance [[1000]] is_silence_zero_int
      (by simpa using not_silence_1000_int) (by simp) silenceLimit_cfgInt_nonneg
      17 (by rw [floor_silenceLimit_cfgInt]; omega) 0
    rw [floor_silenceLimit_cfgInt] at h
    simpa using h
  · rw [ceil_silenceLimit_cfgInt]
    omega

/-- C7 (amended): for every configuration with nonnegative silence limit q and
every input of shape [silence×N, speech×M, silence×K] with M ≥ 1 and K
exceeding the silence-frame-count ⌈q⌉, exactly one buffer is emitted: it has
zero leading silence frames, all M speech frames in their original order, and
exactly ⌊q⌋ + 1 trailing silent frames (equal to ⌈q⌉ when q is not an exact
integer, and to ⌈q⌉ + 1 when it is). -/
theorem C7_shape (cfg : Config) (fsil : Frame) (sp : List Frame) (N K : ℕ)
    (hsil : is_silence fsil cfg.silence_threshold = true)
    (hsp : ∀ f ∈ sp, is_silence f cfg.silence_threshold = false)
    (hne : sp ≠ []) (hL : 0 ≤ silenceLimit cfg)
    (hK : Nat.ceil (silenceLimit cfg) < K) :
    segRun cfg (List.replicate N fsil ++ sp ++ List.replicate K fsil)
      = [sp ++ List.replicate (Nat.floor (silenceLimit cfg) + 1) fsil] :=
  segRun_one_utterance sp hsil hsp hne hL K
    (lt_of_le_of_lt (Nat.floor_le_ceil _) hK) N

/-- Witness for C7 at the default configuration with N = 2 leading silent
frames and K = 33 trailing silent frames. -/
theorem C7_witness :
    segRun cfgDefault (List.replicate 2 [0] ++ [[1000]] ++ List.replicate 33 [0])
      = [[[1000]] ++ List.replicate (Nat.floor (silenceLimit cfgDefault) + 1) [0]] :=
  C7_shape cfgDefault [0] [[1000]] 2 33 is_silence_zero_default
    (by simpa using not_silence_1000_default) (by simp)
    silenceLimit_cfgDefault_nonneg (by simp [ceil_silenceLimit_cfgDefault])

/-- C1 counterexample: stop the recorder externally right after a single
speech frame has been captured (nonempty buffer, silence threshold not
reached).  Contrary to the claim, the partial buffer is transcribed and the
downstream callback IS invoked with the transcribed text: line 91's
`if frames and speech_detected:` is satisfied, so the buffer is flushed, not
discarded. -/
theorem C1_counterexample :
    stopFlush cfgDefault (trOk "hello".data) cbOk [[1000]]
      = (some [[1000]], ["hello".data]) := by
  have h1 : innerLoop cfgDefault initState [[1000]]
      = (⟨[[1000]], 0, true⟩, false, []) := by
    have h : innerLoop cfgDefault initState ([[1000]] ++ []) =
        innerLoop cfgDefault ⟨initState.frames ++ [[1000]], 0, true⟩ [] :=
      innerLoop_speech_run [[1000]] (by simp)
        (by simpa using not_silence_1000_default) initState []
    simpa [innerLoop, initState] using h
  unfold stopFlush
  rw [h1]
  decide

/-- C1 (amended): when the loop is stopped externally while in Capturing with
a nonempty buffer that has not reached the silence threshold, the buffer is
NOT discarded: the inner loop exits at the next flag check, line 91's guard is
true, so the partial buffer is handed to the transcription model, and whenever
transcription succeeds with nonempty stripped text the downstream callback IS
invoked with exactly that text. -/
theorem C1_stop_flushes (cfg : Config) (fsil : Frame) (sp : List Frame)
    (N j : ℕ) (tr : List Frame → Except Text Text)
    (cb : Text → Bool × Except Text Unit) (raw : Text)
    (hsil : is_silence fsil cfg.silence_threshold = true)
    (hsp : ∀ f ∈ sp, is_silence f cfg.silence_threshold = false)
    (hne : sp ≠ []) (hL : 0 ≤ silenceLimit cfg)
    (hj : j ≤ Nat.floor (silenceLimit cfg))
    (htr : tr (sp ++ List.replicate j fsil) = Except.ok raw)
    (hraw : strip raw ≠ []) :
    stopFlush cfg tr cb (List.replicate N fsil ++ sp ++ List.replicate j fsil)
      = (some (sp ++ List.replicate j fsil), [strip raw]) := by
  have hjq : ((j : ℕ) : ℚ) ≤ silenceLimit cfg :=
    le_trans (by exact_mod_cast hj) (Nat.floor_le hL)
  have h1 : innerLoop cfg initState
      (List.replicate N fsil ++ sp ++ List.replicate j fsil)
      = (⟨sp ++ List.replicate j fsil, 0 + j, true⟩, false, []) := by
    rw [show List.replicate N fsil ++ sp ++ List.replicate j fsil
        = List.replicate N fsil ++ (sp ++ List.replicate j fsil) from by
      simp [List.append_assoc]]
    rw [innerLoop_leading_silence hsil rfl N (sp ++ List.replicate j fsil)]
    rw [innerLoop_speech_run sp hne hsp initState (List.replicate j fsil)]
    have h := innerLoop_trailing_silence_noBreak hsil j sp 0 (by simpa using hjq)
    simpa [initState] using h
  have hbne : (sp ++ List.replicate j fsil).isEmpty = false := by
    rcases sp with _ | ⟨f, sp'⟩
    · exact absurd rfl hne
    · simp
  unfold stopFlush
  rw [h1]
  simp only [hbne, Bool.not_false, Bool.and_self, if_true, htr,
    transcriptionBlock_ok hraw]

/-- Witness for C1 with one leading silent frame, one speech frame and two
trailing silent frames (below the 31.25 limit) under the default
configuration. -/
theorem C1_witness :
    stopFlush cfgDefault (trOk "hello".data) cbOk
        (List.replicate 1 [0] ++ [[1000]] ++ List.replicate 2 [0])
      = (some ([[1000]] ++ List.replicate 2 [0]), [strip "hello".data]) :=
  C1_stop_flushes cfgDefault [0] [[1000]] 1 2 (trOk "hello".data) cbOk
    "hello".data is_silence_zero_default (by simpa using not_silence_1000_default)
    (by simp) silenceLimit_cfgDefault_nonneg
    (by simp [floor_silenceLimit_cfgDefault]) rfl (by decide)

/-- C2 counterexample: `stop()` invoked from the recording thread itself — the
situation when the downstream callback calls `recorder.stop()` — reaches
`self.recording_thread.join()` on the current thread, and `Thread.join` raises
RuntimeError instead of completing without raising, refuting the claim that
`stop()` completes without self-joining and without raising. -/
theorem C2_counterexample :
    stop true ⟨true, true⟩
      = (⟨false, true⟩, Except.error "cannot join current thread".data) := rfl

/-- C2 (amended): when the downstream callback calls `stop()` on the recorder,
`is_recording` is cleared and the attempted self-join raises RuntimeError; the
exception propagates out of the callback into the `except` handler of the
transcription block, which swallows it (nothing escapes).  Because the flag is
already false, the loop performs no further frame reads after the callback
returns and the run ends — no deadlock — but `stop()` itself raises rather
than completing silently. -/
theorem C2_callback_stop (cfg : Config) (fsil fsp : Frame)
    (tr : List Frame → Except Text Text) (raw : Text) (extra : List Frame)
    (hsil : is_silence fsil cfg.silence_threshold = true)
    (hsp : is_silence fsp cfg.silence_threshold = false)
    (hL : 0 ≤ silenceLimit cfg)
    (htr : tr (fsp :: List.replicate (Nat.floor (silenceLimit cfg) + 1) fsil)
      = Except.ok raw)
    (hraw : strip raw ≠ []) :
    (stop true ⟨true, true⟩).2 = Except.error "cannot join current thread".data ∧
      (stop true ⟨true, true⟩).1.is_recording = false ∧
      (transcriptionBlock (Except.ok raw) cbStop true).escaped = false ∧
      runRecord cfg tr cbStop true
          ((fsp :: List.replicate (Nat.floor (silenceLimit cfg) + 1) fsil) ++ extra)
        = ⟨[strip raw],
            [fsp :: List.replicate (Nat.floor (silenceLimit cfg) + 1) fsil],
            extra, false⟩ := by
  refine ⟨rfl, rfl, ?_, ?_⟩
  · rw [transcriptionBlock_ok hraw]
  · rw [runRecord_break (innerLoop_one_speech_utterance hsil hsp hL extra), htr,
      transcriptionBlock_ok hraw]
    simp [cbStop, stop, runRecord_stopped]

/-- Witness for C2 under the default configuration with a one-utterance input
followed by an extra unread frame. -/
theorem C2_witness :
    (stop true ⟨true, true⟩).2 = Except.error "cannot join current thread".data ∧
      (stop true ⟨true, true⟩).1.is_recording = false ∧
      (transcriptionBlock (Except.ok "hello".data) cbStop true).escaped = false ∧
      runRecord cfgDefault (trOk "hello".data) cbStop true
          ((([1000] : Frame) ::
              List.replicate (Nat.floor (silenceLimit cfgDefault) + 1) [0]) ++ [[2000]])
        = ⟨[strip "hello".data],
            [([1000] : Frame) ::
              List.replicate (Nat.floor (silenceLimit cfgDefault) + 1) [0]],
            [[2000]], false⟩ :=
  C2_callback_stop cfgDefault [0] [1000] (trOk "hello".data) "hello".data [[2000]]
    is_silence_zero_default not_silence_1000_default silenceLimit_cfgDefault_nonneg
    rfl (by decide)

/-- C8: when the transcription model raises on a buffer, the error is caught
inside the block, so nothing escapes the capture loop, the callback is not
invoked for that buffer and the temporary file is removed (the `finally`
clause runs on the failure path too); moreover the loop keeps listening: in a
run whose first utterance fails to transcribe and whose second succeeds, the
second is still transcribed and delivered to the callback. -/
theorem C8_error_recovery (cfg : Config) (fsil fsp1 fsp2 : Frame)
    (tr : List Frame → Except Text Text) (e raw : Text)
    (cb : Text → Bool × Except Text Unit) (flag : Bool)
    (hsil : is_silence fsil cfg.silence_threshold = true)
    (hsp1 : is_silence fsp1 cfg.silence_threshold = false)
    (hsp2 : is_silence fsp2 cfg.silence_threshold = false)
    (hL : 0 ≤ silenceLimit cfg)
    (htr1 : tr (fsp1 :: List.replicate (Nat.floor (silenceLimit cfg) + 1) fsil)
      = Except.error e)
    (htr2 : tr (fsp2 :: List.replicate (Nat.floor (silenceLimit cfg) + 1) fsil)
      = Except.ok raw)
    (hraw : strip raw ≠ []) :
    transcriptionBlock (Except.error e) cb flag = ⟨[], false, false, flag⟩ ∧
      runRecord cfg tr cbOk true
          ((fsp1 :: List.replicate (Nat.floor (silenceLimit cfg) + 1) fsil) ++
            (fsp2 :: List.replicate (Nat.floor (silenceLimit cfg) + 1) fsil))
        = ⟨[strip raw],
            [fsp1 :: List.replicate (Nat.floor (silenceLimit cfg) + 1) fsil,
              fsp2 :: List.replicate (Nat.floor (silenceLimit cfg) + 1) fsil],
            [], true⟩ := by
  refine ⟨rfl, ?_⟩
  have hf1 : (transcriptionBlock
      (tr (fsp1 :: List.replicate (Nat.floor (silenceLimit cfg) + 1) fsil))
      cbOk true).flag = true := by
    rw [htr1]
    rfl
  have hf2 : (transcriptionBlock
      (tr (fsp2 :: List.replicate (Nat.floor (silenceLimit cfg) + 1) fsil))
      cbOk true).flag = true := by
    rw [htr2, transcriptionBlock_ok hraw]
    rfl
  rw [runRecord_two_utterances hsil hsp1 hsp2 hL hf1 hf2, htr1, htr2,
    transcriptionBlock_ok hraw]
  simp [transcriptionBlock_error]

/-- Witness for C8 under the default configuration, with an oracle failing on
the `[1000]`-led utterance and succeeding on the `[2000]`-led one. -/
theorem C8_witness :
    transcriptionBlock (Except.error "boom".data) cbOk true
        = ⟨[], false, false, true⟩ ∧
      runRecord cfgDefault
          (fun b =>
            if b = ([1000] : Frame) ::
                List.replicate (Nat.floor (silenceLimit cfgDefault) + 1) [0] then
              Except.error "boom".data
            else Except.ok "hi".data)
          cbOk true
          ((([1000] : Frame) ::
              List.replicate (Nat.floor (silenceLimit cfgDefault) + 1) [0]) ++
            (([2000] : Frame) ::
              List.replicate (Nat.floor (silenceLimit cfgDefault) + 1) [0]))
        = ⟨[strip "hi".data],
            [([1000] : Frame) ::
              List.replicate (Nat.floor (silenceLimit cfgDefault) + 1) [0],
              ([2000] : Frame) ::
                List.replicate (Nat.floor (silenceLimit cfgDefault) + 1) [0]],
            [], true⟩ :=
  C8_error_recovery cfgDefault [0] [1000] [2000] _ "boom".data "hi".data cbOk true
    is_silence_zero_default not_silence_1000_default not_silence_2000_default
    silenceLimit_cfgDefault_nonneg (by simp) (by simp) (by decide)

/-- C9: a transcription whose stripped text is empty never reaches the
callback and produces no error (the block returns silently and the loop keeps
listening); conversely every callback invocation carries exactly the stripped
transcription text, which is nonempty. -/
theorem C9_empty_no_callback (tr : Except Text Text)
    (cb : Text → Bool × Except Text Unit) (flag : Bool) :
    (∀ raw, tr = Except.ok raw → strip raw = [] →
        transcriptionBlock tr cb flag = ⟨[], false, false, flag⟩) ∧
      (∀ s ∈ (transcriptionBlock tr cb flag).calls,
        (∃ raw, tr = Except.ok raw ∧ s = strip raw) ∧ s ≠ []) ∧
      (transcriptionBlock tr cb flag).escaped = false := by
  refine ⟨?_, ?_, ?_⟩
  · rintro raw rfl h
    exact transcriptionBlock_empty h cb flag
  · intro s hs
    cases tr with
    | error e => simp [transcriptionBlock_error] at hs
    | ok raw =>
      by_cases h : strip raw = []
      · rw [transcriptionBlock_empty h] at hs
        simp at hs
      · rw [transcriptionBlock_ok h] at hs
        simp only [List.mem_singleton] at hs
        subst hs
        exact ⟨⟨raw, rfl, rfl⟩, h⟩
  · cases tr with
    | error e => rfl
    | ok raw =>
      by_cases h : strip raw = []
      · rw [transcriptionBlock_empty h]
      · rw [transcriptionBlock_ok h]

/-- Witness for C9: a transcription returning only whitespace results in no
callback invocation, no escape and an unchanged flag. -/
theorem C9_witness :
    transcriptionBlock (Except.ok "  ".data) cbOk true
      = ⟨[], false, false, true⟩ :=
  (C9_empty_no_callback (Except.ok "  ".data) cbOk true).1 "  ".data rfl (by decide)

/-- C10: if the downstream callback raises when invoked with transcribed text,
the exception is caught by the same `except Exception` handler that guards the
transcription call, the temporary audio file is still removed by the
`finally` clause, and the loop continues listening: with a callback that
raises on every invocation, both utterances of a two-utterance run are still
processed and delivered. -/
theorem C10_callback_raise (raw e : Text) (flag : Bool)
    (cb : Text → Bool × Except Text Unit) (flag2 : Bool)
    (hraw : strip raw ≠ [])
    (hcb : cb (strip raw) = (flag2, Except.error e))
    (cfg : Config) (fsil fsp1 fsp2 : Frame)
    (tr : List Frame → Except Text Text) (raw1 raw2 : Text)
    (hsil : is_silence fsil cfg.silence_threshold = true)
    (hsp1 : is_silence fsp1 cfg.silence_threshold = false)
    (hsp2 : is_silence fsp2 cfg.silence_threshold = false)
    (hL : 0 ≤ silenceLimit cfg)
    (htr1 : tr (fsp1 :: List.replicate (Nat.floor (silenceLimit cfg) + 1) fsil)
      = Except.ok raw1)
    (htr2 : tr (fsp2 :: List.replicate (Nat.floor (silenceLimit cfg) + 1) fsil)
      = Except.ok raw2)
    (hraw1 : strip raw1 ≠ []) (hraw2 : strip raw2 ≠ []) :
    transcriptionBlock (Except.ok raw) cb flag
        = ⟨[strip raw], false, false, flag2⟩ ∧
      runRecord cfg tr (cbRaise e) true
          ((fsp1 :: List.replicate (Nat.floor (silenceLimit cfg) + 1) fsil) ++
            (fsp2 :: List.replicate (Nat.floor (silenceLimit cfg) + 1) fsil))
        = ⟨[strip raw1, strip raw2],
            [fsp1 :: List.replicate (Nat.floor (silenceLimit cfg) + 1) fsil,
              fsp2 :: List.replicate (Nat.floor (silenceLimit cfg) + 1) fsil],
            [], true⟩ := by
  constructor
  · rw [transcriptionBlock_ok hraw]
    simp [hcb]
  · have hf1 : (transcriptionBlock
        (tr (fsp1 :: List.replicate (Nat.floor (silenceLimit cfg) + 1) fsil))
        (cbRaise e) true).flag = true := by
      rw [htr1, transcriptionBlock_ok hraw1]
      rfl
    have hf2 : (transcriptionBlock
        (tr (fsp2 :: List.replicate (Nat.floor (silenceLimit cfg) + 1) fsil))
        (cbRaise e) true).flag = true := by
      rw [htr2, transcriptionBlock_ok hraw2]
      rfl
    rw [runRecord_two_utterances hsil hsp1 hsp2 hL hf1 hf2, htr1, htr2,
      transcriptionBlock_ok hraw1, transcriptionBlock_ok hraw2]
    simp

/-- Witness for C10: the always-raising callback still sees both utterances of
a two-utterance run under the default configuration. -/
theorem C10_witness :
    transcriptionBlock (Except.ok "hello".data) (cbRaise "err".data) true
        = ⟨[strip "hello".data], false, false, true⟩ ∧
      runRecord cfgDefault (trOk "hi".data) (cbRaise "err".data) true
          ((([1000] : Frame) ::
              List.replicate (Nat.floor (silenceLimit cfgDefault) + 1) [0]) ++
            (([2000] : Frame) ::
              List.replicate (Nat.floor (silenceLimit cfgDefault) + 1) [0]))
        = ⟨[strip "hi".data, strip "hi".data],
            [([1000] : Frame) ::
              List.replicate (Nat.floor (silenceLimit cfgDefault) + 1) [0],
              ([2000] : Frame) ::
                List.replicate (Nat.floor (silenceLimit cfgDefault) + 1) [0]],
            [], true⟩ :=
  C10_callback_raise "hello".data "err".data true (cbRaise "err".data) true
    (by decide) rfl cfgDefault [0] [1000] [2000] (trOk "hi".data)
    "hi".data "hi".data is_silence_zero_default not_silence_1000_default
    not_silence_2000_default silenceLimit_cfgDefault_nonneg rfl rfl
    (by decide) (by decide)

end AlternativeSTT
